import Mathlib

/-!
# Verification of the git-server access-control and provisioning core

A shallow embedding, in Lean 4, of the access-control, authorization,
provisioning, backup-hook and configuration logic of the `git-server`
repository (`main.go`, `config.go`), together with theorems checking the
natural-language specification against the embedded code.

Strings from the Go code are modelled as Lean `String`s; where Go works on
the underlying bytes we work on the list of characters (all separators and
patterns involved are ASCII, for which the two views agree) and measure
lengths with `Char.utf8Size`, which is exactly the number of bytes of the
UTF-8 encoding that Go's `len` counts.
-/

namespace GitServer

/-- Whitespace recognized by Go's `unicode.IsSpace` on the Latin-1 range:
space, tab, newline, vertical tab, form feed, carriage return, NEL (U+0085)
and NBSP (U+00A0).  (Go additionally trims rarer Unicode space runes that
never occur in the inputs modelled here.) -/
def goIsSpace (c : Char) : Bool :=
  c == ' ' || c == '\t' || c == '\n' || c == Char.ofNat 11 || c == Char.ofNat 12 ||
    c == '\r' || c == Char.ofNat 133 || c == Char.ofNat 160

/-- Go `strings.TrimSpace`: drop whitespace from both ends. -/
def trimSpace (l : List Char) : List Char :=
  ((l.dropWhile goIsSpace).reverse.dropWhile goIsSpace).reverse

/-- Predicate `beginsWith pat s` holds when `pat` is an initial segment of `s`
(Go `strings.HasPrefix`). -/
def beginsWith : List Char → List Char → Bool
  | [], _ => true
  | _ :: _, [] => false
  | p :: ps, c :: cs => p == c && beginsWith ps cs

/-- Go `strings.Contains s pat`: `pat` occurs as a contiguous substring of
`s`. -/
def containsStr (pat : List Char) : List Char → Bool
  | [] => pat.isEmpty
  | c :: cs => beginsWith pat (c :: cs) || containsStr pat cs

/-- Byte length of the UTF-8 encoding of a character list — what Go's
`len` counts on a string. -/
def goLenList (l : List Char) : Nat := (l.map Char.utf8Size).sum

/-- Go `len s` for a string. -/
def goLen (s : String) : Nat := goLenList s.toList

/-- Membership in the character class of the repository-name regular
expression `^[a-zA-Z0-9._-]+$` (`repoNameRegex` in `main.go`); the numeric
ranges are the code points of `a`–`z` (97–122), `A`–`Z` (65–90) and
`0`–`9` (48–57). -/
def isRepoChar (c : Char) : Bool :=
  (97 ≤ c.toNat && c.toNat ≤ 122) || (65 ≤ c.toNat && c.toNat ≤ 90) ||
    (48 ≤ c.toNat && c.toNat ≤ 57) || c == '.' || c == '_' || c == '-'

/-- Matching against `repoNameRegex` (`MatchString`): the whole string is one or more characters
of the class `[a-zA-Z0-9._-]`. -/
def repoNameRegexMatch (l : List Char) : Bool :=
  !l.isEmpty && l.all isRepoChar

/-- Function `isValidRepoName` from `main.go`: length bounds checked on the byte
length, then rejection of `..` and `/` substrings, then the regex. -/
def isValidRepoName (repo : String) : Bool :=
  if goLen repo == 0 || goLen repo > 100 then false
  else if containsStr ['.', '.'] repo.toList || containsStr ['/'] repo.toList then false
  else repoNameRegexMatch repo.toList

theorem one_le_utf8Size (c : Char) : 1 ≤ c.utf8Size := Char.utf8Size_pos c

theorem length_le_goLenList (l : List Char) : l.length ≤ goLenList l := by
  induction l with
  | nil => simp [goLenList]
  | cons c cs ih =>
      have := one_le_utf8Size c
      simp only [goLenList, List.map_cons, List.sum_cons, List.length_cons] at *
      omega

theorem utf8Size_eq_one_of_isRepoChar (c : Char) (h : isRepoChar c = true) :
    c.utf8Size = 1 := by
  have h127 : c.toNat ≤ 127 := by
    simp only [isRepoChar, Bool.or_eq_true, Bool.and_eq_true, decide_eq_true_eq,
      beq_iff_eq] at h
    rcases h with ((((⟨_, h2⟩ | ⟨_, h2⟩) | ⟨_, h2⟩) | h) | h) | h
    · omega
    · omega
    · omega
    · subst h; decide
    · subst h; decide
    · subst h; decide
  unfold Char.utf8Size
  have hv : c.val ≤ (127 : UInt32) := by
    rw [UInt32.le_def, BitVec.le_def]
    exact h127
  simp [hv]

theorem goLenList_eq_length_of_repoChars (l : List Char)
    (h : ∀ c ∈ l, isRepoChar c = true) : goLenList l = l.length := by
  induction l with
  | nil => simp [goLenList]
  | cons c cs ih =>
      simp only [goLenList, List.map_cons, List.sum_cons, List.length_cons]
      rw [utf8Size_eq_one_of_isRepoChar c (h c (by simp))]
      have := ih (fun x hx => h x (by simp [hx]))
      simp only [goLenList] at this
      omega

theorem isEmpty_false_iff (l : List Char) : l.isEmpty = false ↔ l ≠ [] := by
  cases l <;> simp

/-- Claim C3: `isValidRepoName` accepts exactly the non-empty identifiers of at
most 100 characters, drawn from the class `[a-zA-Z0-9._-]`, containing
neither the substring `..` nor `/` — with no normalization: the raw string
is classified as given. -/
theorem isValidRepoName_iff (repo : String) :
    isValidRepoName repo = true ↔
      (repo.toList ≠ [] ∧ repo.toList.length ≤ 100 ∧
        (∀ c ∈ repo.toList, isRepoChar c = true) ∧
        containsStr ['.', '.'] repo.toList = false ∧
        containsStr ['/'] repo.toList = false) := by
  unfold isValidRepoName
  by_cases h0 : (goLen repo == 0 || decide (goLen repo > 100)) = true
  · rw [if_pos h0]
    simp only [Bool.or_eq_true, beq_iff_eq, decide_eq_true_eq] at h0
    constructor
    · intro h; simp at h
    · rintro ⟨hne, hlen, hall, -, -⟩
      have hgl := goLenList_eq_length_of_repoChars _ hall
      have hpos : repo.toList.length ≠ 0 := fun hz => hne (List.length_eq_zero.mp hz)
      exfalso
      unfold goLen at h0
      rcases h0 with h0 | h0 <;> omega
  · rw [if_neg h0]
    by_cases h1 : (containsStr ['.', '.'] repo.toList || containsStr ['/'] repo.toList) = true
    · rw [if_pos h1]
      constructor
      · intro h; simp at h
      · rintro ⟨-, -, -, hdd, hsl⟩
        rcases Bool.or_eq_true _ _ |>.mp h1 with h1' | h1'
        · rw [hdd] at h1'; simp at h1'
        · rw [hsl] at h1'; simp at h1'
    · rw [if_neg h1]
      simp only [Bool.or_eq_true, not_or, beq_iff_eq, decide_eq_true_eq] at h0 h1
      obtain ⟨h00, h01⟩ := h0
      obtain ⟨h10, h11⟩ := h1
      unfold repoNameRegexMatch
      constructor
      · intro h
        simp only [Bool.and_eq_true, Bool.not_eq_true', List.all_eq_true] at h
        obtain ⟨hne, hall⟩ := h
        refine ⟨(isEmpty_false_iff _).mp hne, ?_, hall, ?_, ?_⟩
        · have h2 := length_le_goLenList repo.toList
          unfold goLen at h01
          omega
        · cases hb : containsStr ['.', '.'] repo.toList
          · rfl
          · exact absurd hb h10
        · cases hb : containsStr ['/'] repo.toList
          · rfl
          · exact absurd hb h11
      · rintro ⟨hne, -, hall, -, -⟩
        simp only [Bool.and_eq_true, Bool.not_eq_true', List.all_eq_true]
        exact ⟨(isEmpty_false_iff _).mpr hne, hall⟩

/-! ## Authorized-key matching and the authorization client (`isKeyAuthorized`) -/

/-- A `{id, key}` record decoded from the authority's JSON array
(`authorizedKey` in `main.go`). -/
structure authorizedKey where
  id : String
  key : String
deriving DecidableEq

/-- Go `strings.Join parts " "`. -/
def joinWithSpace : List (List Char) → List Char
  | [] => []
  | [x] => x
  | x :: y :: xs => x ++ ' ' :: joinWithSpace (y :: xs)

/-- Lines 117–118 of `main.go`: `keyPart := strings.Split(key, " ")` and
`strings.Join(keyPart[0:len(keyPart)-1], " ")`.  `List.splitOn` has
exactly Go's `strings.Split` semantics for a one-character separator:
fragments between consecutive separators are kept even when empty. -/
def keyWithoutUserIdentity (k : List Char) : List Char :=
  let keyPart := k.splitOn ' '
  joinWithSpace (keyPart.take (keyPart.length - 1))

/-- One iteration of the matching loop (line 119):
`strings.TrimSpace(keyWithoutUserIdentity) == strings.TrimSpace(marshaledKey)`. -/
def matchesAuthorizedKey (marshaledKey : String) (authKey : authorizedKey) : Bool :=
  trimSpace (keyWithoutUserIdentity authKey.key.toList) == trimSpace marshaledKey.toList

/-- The record-scanning loop of `isKeyAuthorized` (lines 116–123): `true`
on the first matching record, `false` once the collection is exhausted. -/
def scanAuthorizedKeys (marshaledKey : String) : List authorizedKey → Bool
  | [] => false
  | k :: ks => matchesAuthorizedKey marshaledKey k || scanAuthorizedKeys marshaledKey ks

/-- The observable outcome of the HTTP GET to
`{authorityBaseURL}/{repo}`: either a transport error
(`client.Get` returned a non-nil error, which also covers the client-side
timeout), or a response carrying a status code, whether reading the body
failed, and — when it was read — the result of JSON decoding into an
array of records (`none` models `json.Unmarshal` failing). -/
inductive AuthorityResponse where
  | transportError
  | httpResponse (status : Nat) (readFailed : Bool) (decoded : Option (List authorizedKey))
deriving DecidableEq

/-- Function `isKeyAuthorized` from `main.go`, as a function of the marshalled
presented key (`gossh.MarshalAuthorizedKey`, i.e. `algorithm base64blob`
followed by a newline) and of the authority's response.  Every failure
path returns `false`. -/
def isKeyAuthorized (marshaledKey : String) (resp : AuthorityResponse) : Bool :=
  match resp with
  | .transportError => false
  | .httpResponse status readFailed decoded =>
    if status != 200 then false
    else if readFailed then false
    else
      match decoded with
      | none => false
      | some authKeys => scanAuthorizedKeys marshaledKey authKeys

/-- Splitting into whitespace-separated tokens, as the words of the
specification and of C4 describe the matching ("splits the `key` field on
whitespace"): maximal runs of non-whitespace characters, with whitespace
of any kind separating them. -/
def whitespaceTokens (l : List Char) : List (List Char) :=
  (l.splitOnP goIsSpace).filter (fun t => !t.isEmpty)

/-- The matching rule of claim C4, exactly as the claim words it: split the record's
key on whitespace, drop the last token, rejoin, trim both sides, compare
with the trimmed presented key. -/
def specMatchesAuthorizedKey (marshaledKey : String) (authKey : authorizedKey) : Bool :=
  let toks := whitespaceTokens authKey.key.toList
  trimSpace (joinWithSpace (toks.take (toks.length - 1))) == trimSpace marshaledKey.toList

/-- The record scan of claim C4, built on `specMatchesAuthorizedKey`. -/
def specScanAuthorizedKeys (marshaledKey : String) : List authorizedKey → Bool
  | [] => false
  | k :: ks => specMatchesAuthorizedKey marshaledKey k || specScanAuthorizedKeys marshaledKey ks

theorem scanAuthorizedKeys_eq_false (mk : String) (keys : List authorizedKey)
    (h : ∀ k ∈ keys, matchesAuthorizedKey mk k = false) :
    scanAuthorizedKeys mk keys = false := by
  induction keys with
  | nil => rfl
  | cons k ks ih =>
      simp only [scanAuthorizedKeys, Bool.or_eq_false_iff]
      exact ⟨h k (by simp), ih (fun x hx => h x (by simp [hx]))⟩

/-- Claim C2: `isKeyAuthorized` is fail-closed — a transport error, a non-200
status, a JSON-decode failure (and also a body-read failure), and an
exhausted or empty record collection each yield `false`. -/
theorem isKeyAuthorized_fail_closed (mk : String) :
    (isKeyAuthorized mk .transportError = false) ∧
    (∀ st rf d, st ≠ 200 → isKeyAuthorized mk (.httpResponse st rf d) = false) ∧
    (∀ st d, isKeyAuthorized mk (.httpResponse st true d) = false) ∧
    (∀ st rf, isKeyAuthorized mk (.httpResponse st rf none) = false) ∧
    (∀ st rf keys, (∀ k ∈ keys, matchesAuthorizedKey mk k = false) →
      isKeyAuthorized mk (.httpResponse st rf (some keys)) = false) := by
  refine ⟨rfl, ?_, ?_, ?_, ?_⟩
  · intro st rf d hst
    simp only [isKeyAuthorized]
    rw [if_pos (by simpa using hst)]
  · intro st d
    simp only [isKeyAuthorized]
    split
    · rfl
    · rfl
  · intro st rf
    simp only [isKeyAuthorized]
    split
    · rfl
    · split
      · rfl
      · rfl
  · intro st rf keys h
    simp only [isKeyAuthorized]
    split
    · rfl
    · split
      · rfl
      · exact scanAuthorizedKeys_eq_false mk keys h

/-- Witness for C2 at concrete inputs: status 500, decode failure, and a
non-matching single-record collection are all denied. -/
theorem isKeyAuthorized_fail_closed_witness :
    isKeyAuthorized "ssh-ed25519 AAAA\n" .transportError = false ∧
    isKeyAuthorized "ssh-ed25519 AAAA\n" (.httpResponse 500 false none) = false ∧
    isKeyAuthorized "ssh-ed25519 AAAA\n" (.httpResponse 200 false none) = false ∧
    isKeyAuthorized "ssh-ed25519 AAAA\n"
      (.httpResponse 200 false (some [⟨"1", "ssh-ed25519 BBBB user@host"⟩])) = false ∧
    isKeyAuthorized "ssh-ed25519 AAAA\n" (.httpResponse 200 false (some [])) = false := by
  have h := isKeyAuthorized_fail_closed "ssh-ed25519 AAAA\n"
  refine ⟨h.1, h.2.1 500 false none (by decide), h.2.2.2.1 200 false, ?_, ?_⟩
  · exact h.2.2.2.2 200 false [⟨"1", "ssh-ed25519 BBBB user@host"⟩] (by decide)
  · exact h.2.2.2.2 200 false [] (by simp)

theorem scanAuthorizedKeys_eq_true_iff (mk : String) (keys : List authorizedKey) :
    scanAuthorizedKeys mk keys = true ↔ ∃ k ∈ keys, matchesAuthorizedKey mk k = true := by
  induction keys with
  | nil => simp [scanAuthorizedKeys]
  | cons k ks ih =>
      simp only [scanAuthorizedKeys, Bool.or_eq_true, ih, List.mem_cons]
      constructor
      · rintro (h | ⟨x, hx, hm⟩)
        · exact ⟨k, Or.inl rfl, h⟩
        · exact ⟨x, Or.inr hx, hm⟩
      · rintro ⟨x, hx | hx, hm⟩
        · subst hx; exact Or.inl hm
        · exact Or.inr ⟨x, hx, hm⟩

/-- Counterexample to claim C4: the claim describes the matching as splitting the
record's key on *whitespace*; the code splits on the space character only.
For a record whose key separates the algorithm token from the blob with a
tab, the claim's rule matches the canonical presented key
`ssh-ed25519 AAAA` but `isKeyAuthorized` denies it. -/
theorem key_matching_whitespace_counterexample :
    isKeyAuthorized "ssh-ed25519 AAAA"
        (.httpResponse 200 false (some [⟨"1", "ssh-ed25519\tAAAA user@host"⟩])) = false ∧
    specScanAuthorizedKeys "ssh-ed25519 AAAA"
        [⟨"1", "ssh-ed25519\tAAAA user@host"⟩] = true := by
  constructor <;> decide

/-- Claim C4 as amended: for every record collection and presented key,
`isKeyAuthorized` (on a successfully decoded 200 response) authorizes
exactly when some record matches after splitting its `key` field on the
*space character* (a tab or other whitespace is not a separator, and
consecutive spaces contribute empty tokens that survive rejoining),
dropping the last token, rejoining the remainder with spaces, trimming
surrounding whitespace on both sides, and comparing — case-sensitively
and exactly — with the trimmed canonical presented key; `true` on the
first matching record, `false` when the collection is exhausted. -/
theorem isKeyAuthorized_matching_amended (mk : String) (keys : List authorizedKey) :
    isKeyAuthorized mk (.httpResponse 200 false (some keys)) = true ↔
      ∃ k ∈ keys,
        trimSpace (joinWithSpace ((k.key.toList.splitOn ' ').dropLast)) =
          trimSpace mk.toList := by
  have h0 : isKeyAuthorized mk (.httpResponse 200 false (some keys)) =
      scanAuthorizedKeys mk keys := rfl
  rw [h0, scanAuthorizedKeys_eq_true_iff]
  refine exists_congr fun k => and_congr_right fun _ => ?_
  simp only [matchesAuthorizedKey, keyWithoutUserIdentity, beq_iff_eq]
  rw [List.dropLast_eq_take]

/-! ## Repository provisioning (`createBareRepoWithHook`) and the decision
gate (`AuthRepo`) -/

/-- Outcome of `os.Stat` on the repository path, with the distinction the
code draws: `os.IsNotExist(err)` singles out `statNotExists`; a present
path (`err == nil`) and any other stat failure (e.g. a permission error)
both land in the complementary branch. -/
inductive StatOutcome where
  | statExists
  | statNotExists
  | statError
deriving DecidableEq

/-- Filesystem state visible to the provisioning code: which repository
names have a directory under `config.RepoDir`, an initialized bare
repository, and an installed `hooks/post-receive` file.  The lists may
hold duplicates, so `List.count` counts creation events. -/
structure FSState where
  existing : List String
  initialized : List String
  hooked : List String
deriving DecidableEq

/-- Environment for one provisioning attempt: whether `os.Stat` fails with
an error other than not-exist, and whether `os.MkdirAll`, `git init
--bare` and the hook `os.WriteFile` succeed. -/
structure ProvisionEnv where
  statErr : Bool
  mkdirOk : Bool
  gitInitOk : Bool
  hookOk : Bool
deriving DecidableEq

/-- Function `statRepo` models `os.Stat` through the lens of `os.IsNotExist`, as both call sites in
`main.go` use it. -/
def statRepo (st : FSState) (e : ProvisionEnv) (repo : String) : StatOutcome :=
  if e.statErr then .statError
  else if repo ∈ st.existing then .statExists
  else .statNotExists

/-- Which external operations a provisioning call attempted. -/
structure ProvisionEffects where
  mkdirAttempted : Bool
  gitInitAttempted : Bool
  hookWriteAttempted : Bool
deriving DecidableEq

/-- A call that touched nothing. -/
def noEffects : ProvisionEffects := ⟨false, false, false⟩

/-- Function `createBareRepoWithHook` from `main.go`, the body held under the
process-wide `repoMutex`: re-check existence, then `MkdirAll`, `git init
--bare`, and hook installation, stopping at the first failure with no
rollback.  Returns whether the call succeeded (`err == nil`), the
filesystem state afterwards, and which operations were attempted.  A
`.statError` outcome falls into the `!os.IsNotExist(err)` branch and
returns success immediately. -/
def createBareRepoWithHook (st : FSState) (e : ProvisionEnv) (repoName : String) :
    Bool × FSState × ProvisionEffects :=
  match statRepo st e repoName with
  | .statNotExists =>
    if e.mkdirOk then
      let st1 : FSState := { st with existing := repoName :: st.existing }
      if e.gitInitOk then
        let st2 : FSState := { st1 with initialized := repoName :: st1.initialized }
        if e.hookOk then
          (true, { st2 with hooked := repoName :: st2.hooked }, ⟨true, true, true⟩)
        else (false, st2, ⟨true, true, true⟩)
      else (false, st1, ⟨true, true, false⟩)
    else (false, st, ⟨true, false, false⟩)
  | _ => (true, st, noEffects)

/-- Type `git.AccessLevel` of the wish library: the four levels the `AuthRepo`
callback could in principle return. -/
inductive AccessLevel where
  | NoAccess
  | ReadOnlyAccess
  | ReadWriteAccess
  | AdminAccess
deriving DecidableEq

/-- Function `AuthRepo` from `main.go` as a function of the repository name, the
marshalled presented key, the authority's response, the filesystem state
and the provisioning environment.  Returns the access level, the
filesystem state afterwards, the number of HTTP calls issued (the single
GET inside `isKeyAuthorized`), and the provisioning effects. -/
def AuthRepo (repo marshaledKey : String) (resp : AuthorityResponse)
    (st : FSState) (e : ProvisionEnv) :
    AccessLevel × FSState × Nat × ProvisionEffects :=
  if !isValidRepoName repo then (.NoAccess, st, 0, noEffects)
  else if isKeyAuthorized marshaledKey resp then
    match statRepo st e repo with
    | .statNotExists =>
      let res := createBareRepoWithHook st e repo
      if res.1 then (.ReadWriteAccess, res.2.1, 1, res.2.2)
      else (.NoAccess, res.2.1, 1, res.2.2)
    | _ => (.ReadWriteAccess, st, 1, noEffects)
  else (.NoAccess, st, 1, noEffects)

/-- Running `n` sequential executions of the provisioning critical section — the
serialization that the process-wide `repoMutex`, acquired before the
existence check, enforces on `n` concurrent callers.  Returns the final
state, whether every call succeeded, and how many calls attempted
`git init`. -/
def runProvisionCalls (e : ProvisionEnv) (repo : String) :
    Nat → FSState → FSState × Bool × Nat
  | 0, st => (st, true, 0)
  | n + 1, st =>
    let res := createBareRepoWithHook st e repo
    let rest := runProvisionCalls e repo n res.2.1
    (rest.1, res.1 && rest.2.1, (if res.2.2.gitInitAttempted then 1 else 0) + rest.2.2)

theorem createBare_noop_of_not_notExists (st : FSState) (e : ProvisionEnv) (repo : String)
    (h : statRepo st e repo ≠ .statNotExists) :
    createBareRepoWithHook st e repo = (true, st, noEffects) := by
  unfold createBareRepoWithHook
  cases hs : statRepo st e repo with
  | statExists => rfl
  | statNotExists => exact absurd hs h
  | statError => rfl

theorem statRepo_ne_notExists_of_mem (st : FSState) (e : ProvisionEnv) (repo : String)
    (h : repo ∈ st.existing) : statRepo st e repo ≠ .statNotExists := by
  unfold statRepo
  by_cases he : e.statErr = true
  · simp [he]
  · simp only [Bool.not_eq_true] at he
    simp [he, h]

theorem createBare_noop_of_mem (st : FSState) (e : ProvisionEnv) (repo : String)
    (h : repo ∈ st.existing) :
    createBareRepoWithHook st e repo = (true, st, noEffects) :=
  createBare_noop_of_not_notExists st e repo (statRepo_ne_notExists_of_mem st e repo h)

theorem createBare_success_mem (st : FSState) (e : ProvisionEnv) (repo : String)
    (he : e.statErr = false) (st' : FSState) (eff : ProvisionEffects)
    (h : createBareRepoWithHook st e repo = (true, st', eff)) :
    repo ∈ st'.existing := by
  by_cases hm : repo ∈ st.existing
  · rw [createBare_noop_of_mem st e repo hm] at h
    injection h with h1 h2
    injection h2 with h2 h3
    exact h2 ▸ hm
  · have hs : statRepo st e repo = .statNotExists := by
      unfold statRepo
      simp [he, hm]
    unfold createBareRepoWithHook at h
    rw [hs] at h
    by_cases h1 : e.mkdirOk = true
    · rw [if_pos h1] at h
      by_cases h2 : e.gitInitOk = true
      · rw [if_pos h2] at h
        by_cases h3 : e.hookOk = true
        · rw [if_pos h3] at h
          injection h with ha hb
          injection hb with hb hc
          rw [← hb]
          simp
        · rw [if_neg h3] at h
          injection h with ha
          simp at ha
      · rw [if_neg h2] at h
        injection h with ha
        simp at ha
    · rw [if_neg h1] at h
      injection h with ha
      simp at ha

/-- Claim C5: provisioning is idempotent — when the storage path already exists
the call returns success immediately, leaving the filesystem untouched and
attempting no directory creation, no bare-repository initialization and no
hook write; and calling it again after any prior success (in an
environment whose stat is diagnosable) is a no-op that returns success. -/
theorem ensureRepo_idempotent (repo : String) :
    (∀ (st : FSState) (e : ProvisionEnv), repo ∈ st.existing →
      createBareRepoWithHook st e repo = (true, st, noEffects)) ∧
    (∀ (st : FSState) (e e₂ : ProvisionEnv) (st' : FSState) (eff : ProvisionEffects),
      e.statErr = false →
      createBareRepoWithHook st e repo = (true, st', eff) →
      createBareRepoWithHook st' e₂ repo = (true, st', noEffects)) := by
  refine ⟨fun st e h => createBare_noop_of_mem st e repo h, ?_⟩
  intro st e e₂ st' eff he h
  exact createBare_noop_of_mem st' e₂ repo (createBare_success_mem st e repo he st' eff h)

/-- Witness for C5: a second call on the state a successful creation left
behind returns success and changes nothing. -/
theorem ensureRepo_idempotent_witness :
    createBareRepoWithHook ⟨["demo"], [], []⟩ ⟨false, true, true, true⟩ "demo" =
      (true, ⟨["demo"], [], []⟩, noEffects) ∧
    createBareRepoWithHook ⟨["demo"], ["demo"], ["demo"]⟩ ⟨false, true, true, true⟩ "demo" =
      (true, ⟨["demo"], ["demo"], ["demo"]⟩, noEffects) := by
  have h := ensureRepo_idempotent "demo"
  refine ⟨h.1 ⟨["demo"], [], []⟩ ⟨false, true, true, true⟩ (by decide), ?_⟩
  exact h.2 ⟨[], [], []⟩ ⟨false, true, true, true⟩ ⟨false, true, true, true⟩
    ⟨["demo"], ["demo"], ["demo"]⟩ ⟨true, true, true⟩ rfl (by decide)

/-- Claim C9: an `os.Stat` failure other than not-exist is treated as an
existing repository: `AuthRepo` skips provisioning and grants
`ReadWriteAccess` to an authorized key, and the creation routine returns
success without creating a directory, initializing a repository or
installing a hook. -/
theorem stat_error_skips_provisioning (repo mk : String) (resp : AuthorityResponse)
    (st : FSState) (e : ProvisionEnv)
    (hv : isValidRepoName repo = true)
    (ha : isKeyAuthorized mk resp = true)
    (he : e.statErr = true) :
    AuthRepo repo mk resp st e = (.ReadWriteAccess, st, 1, noEffects) ∧
    createBareRepoWithHook st e repo = (true, st, noEffects) := by
  have hs : statRepo st e repo = .statError := by
    unfold statRepo
    simp [he]
  constructor
  · unfold AuthRepo
    simp [hv, ha, hs]
  · exact createBare_noop_of_not_notExists st e repo (by rw [hs]; intro h; cases h)

/-- Witness for C9: a permission-style stat failure on an empty filesystem
still yields `ReadWriteAccess` with no provisioning side effects. -/
theorem stat_error_skips_provisioning_witness :
    AuthRepo "demo" "ssh-ed25519 AAAA\n"
        (.httpResponse 200 false (some [⟨"1", "ssh-ed25519 AAAA user@host"⟩]))
        ⟨[], [], []⟩ ⟨true, true, true, true⟩ =
      (.ReadWriteAccess, ⟨[], [], []⟩, 1, noEffects) ∧
    createBareRepoWithHook ⟨[], [], []⟩ ⟨true, true, true, true⟩ "demo" =
      (true, ⟨[], [], []⟩, noEffects) :=
  stat_error_skips_provisioning "demo" "ssh-ed25519 AAAA\n"
    (.httpResponse 200 false (some [⟨"1", "ssh-ed25519 AAAA user@host"⟩]))
    ⟨[], [], []⟩ ⟨true, true, true, true⟩ (by decide) (by decide) rfl

theorem runProvisionCalls_noop (e : ProvisionEnv) (repo : String) (n : Nat) (st : FSState)
    (h : repo ∈ st.existing) : runProvisionCalls e repo n st = (st, true, 0) := by
  induction n with
  | zero => rfl
  | succ n ih =>
      simp only [runProvisionCalls, createBare_noop_of_mem st e repo h, ih, noEffects]
      simp

/-- Claim C6: with the critical section serialized by the single process-wide
`repoMutex` (acquired before the existence check), `n ≥ 1` callers racing
on a not-yet-existing identifier are equivalent to `n` sequential
executions: every call returns success, `git init` is attempted exactly
once, and exactly one directory, one bare repository and one hook result. -/
theorem concurrent_provisioning_single_creation (repo : String) (st : FSState)
    (e : ProvisionEnv) (n : Nat) (hn : 1 ≤ n)
    (h1 : repo ∉ st.existing) (h2 : repo ∉ st.initialized) (h3 : repo ∉ st.hooked)
    (he : e.statErr = false) (hm : e.mkdirOk = true) (hg : e.gitInitOk = true)
    (hh : e.hookOk = true) :
    (runProvisionCalls e repo n st).2.1 = true ∧
    (runProvisionCalls e repo n st).1.existing.count repo = 1 ∧
    (runProvisionCalls e repo n st).1.initialized.count repo = 1 ∧
    (runProvisionCalls e repo n st).1.hooked.count repo = 1 ∧
    (runProvisionCalls e repo n st).2.2 = 1 := by
  obtain ⟨m, rfl⟩ : ∃ m, n = m + 1 := ⟨n - 1, by omega⟩
  have hs : statRepo st e repo = .statNotExists := by
    unfold statRepo
    simp [he, h1]
  have hcreate : createBareRepoWithHook st e repo =
      (true, ⟨repo :: st.existing, repo :: st.initialized, repo :: st.hooked⟩,
        ⟨true, true, true⟩) := by
    unfold createBareRepoWithHook
    rw [hs]
    simp [hm, hg, hh]
  have hnoop := runProvisionCalls_noop e repo m
    ⟨repo :: st.existing, repo :: st.initialized, repo :: st.hooked⟩ (by simp)
  simp only [runProvisionCalls, hcreate, hnoop]
  simp only [List.count_cons_self]
  refine ⟨rfl, ?_, ?_, ?_, rfl⟩ <;>
    simp [List.count_eq_zero.mpr, h1, h2, h3, List.count_eq_zero]

/-- Witness for C6: three racing callers on a fresh `demo` repository. -/
theorem concurrent_provisioning_single_creation_witness :
    (runProvisionCalls ⟨false, true, true, true⟩ "demo" 3 ⟨[], [], []⟩).2.1 = true ∧
    (runProvisionCalls ⟨false, true, true, true⟩ "demo" 3 ⟨[], [], []⟩).1.existing.count
      "demo" = 1 ∧
    (runProvisionCalls ⟨false, true, true, true⟩ "demo" 3 ⟨[], [], []⟩).1.initialized.count
      "demo" = 1 ∧
    (runProvisionCalls ⟨false, true, true, true⟩ "demo" 3 ⟨[], [], []⟩).1.hooked.count
      "demo" = 1 ∧
    (runProvisionCalls ⟨false, true, true, true⟩ "demo" 3 ⟨[], [], []⟩).2.2 = 1 :=
  concurrent_provisioning_single_creation "demo" ⟨[], [], []⟩ ⟨false, true, true, true⟩ 3
    (by omega) (by decide) (by decide) (by decide) rfl rfl rfl rfl

/-- Claim C1: the end-to-end decision table of `AuthRepo`: an invalid name yields
`NoAccess` with zero HTTP calls and no provisioning; a valid name with an
unauthorized key yields `NoAccess` with no provisioning attempt; a valid
name with an authorized key yields `ReadWriteAccess` when provisioning is
unneeded or succeeds, and `NoAccess` when it fails; and no access level
other than `NoAccess` and `ReadWriteAccess` is ever produced. -/
theorem authRepo_decision_table (repo mk : String) (resp : AuthorityResponse)
    (st : FSState) (e : ProvisionEnv) :
    (isValidRepoName repo = false →
      AuthRepo repo mk resp st e = (.NoAccess, st, 0, noEffects)) ∧
    (isValidRepoName repo = true → isKeyAuthorized mk resp = false →
      AuthRepo repo mk resp st e = (.NoAccess, st, 1, noEffects)) ∧
    (isValidRepoName repo = true → isKeyAuthorized mk resp = true →
      statRepo st e repo ≠ .statNotExists →
      AuthRepo repo mk resp st e = (.ReadWriteAccess, st, 1, noEffects)) ∧
    (isValidRepoName repo = true → isKeyAuthorized mk resp = true →
      ∀ st' eff, createBareRepoWithHook st e repo = (true, st', eff) →
      (AuthRepo repo mk resp st e).1 = .ReadWriteAccess) ∧
    (isValidRepoName repo = true → isKeyAuthorized mk resp = true →
      ∀ st' eff, createBareRepoWithHook st e repo = (false, st', eff) →
      (AuthRepo repo mk resp st e).1 = .NoAccess) ∧
    ((AuthRepo repo mk resp st e).1 = .NoAccess ∨
      (AuthRepo repo mk resp st e).1 = .ReadWriteAccess) := by
  refine ⟨?_, ?_, ?_, ?_, ?_, ?_⟩
  · intro hv
    unfold AuthRepo
    simp [hv]
  · intro hv ha
    unfold AuthRepo
    simp [hv, ha]
  · intro hv ha hs
    unfold AuthRepo
    cases hst : statRepo st e repo with
    | statNotExists => exact absurd hst hs
    | statExists => simp [hv, ha, hst]
    | statError => simp [hv, ha, hst]
  · intro hv ha st' eff hc
    unfold AuthRepo
    cases hst : statRepo st e repo with
    | statNotExists => simp [hv, ha, hst, hc]
    | statExists => simp [hv, ha, hst]
    | statError => simp [hv, ha, hst]
  · intro hv ha st' eff hc
    unfold AuthRepo
    cases hst : statRepo st e repo with
    | statNotExists => simp [hv, ha, hst, hc]
    | statExists =>
        exfalso
        have := createBare_noop_of_not_notExists st e repo (by rw [hst]; intro h; cases h)
        rw [this] at hc
        injection hc with h1 _
        cases h1
    | statError =>
        exfalso
        have := createBare_noop_of_not_notExists st e repo (by rw [hst]; intro h; cases h)
        rw [this] at hc
        injection hc with h1 _
        cases h1
  · unfold AuthRepo
    by_cases hvb : isValidRepoName repo = true
    · by_cases hab : isKeyAuthorized mk resp = true
      · cases hst : statRepo st e repo with
        | statNotExists =>
            by_cases hc : (createBareRepoWithHook st e repo).1 = true
            · exact Or.inr (by simp [hvb, hab, hst, hc])
            · exact Or.inl (by simp [hvb, hab, hst, hc])
        | statExists => exact Or.inr (by simp [hvb, hab, hst])
        | statError => exact Or.inr (by simp [hvb, hab, hst])
      · have hab' : isKeyAuthorized mk resp = false := by simpa using hab
        exact Or.inl (by simp [hvb, hab'])
    · have hvb' : isValidRepoName repo = false := by simpa using hvb
      exact Or.inl (by simp [hvb'])

/-- Witness for C1: an invalid name is denied with zero HTTP calls, and
the authorized `demo` scenario with successful provisioning is granted
read-write access. -/
theorem authRepo_decision_table_witness :
    AuthRepo "a/b" "k" .transportError ⟨[], [], []⟩ ⟨false, true, true, true⟩ =
      (.NoAccess, ⟨[], [], []⟩, 0, noEffects) ∧
    (AuthRepo "demo" "ssh-ed25519 AAAA\n"
        (.httpResponse 200 false (some [⟨"1", "ssh-ed25519 AAAA user@host"⟩]))
        ⟨[], [], []⟩ ⟨false, true, true, true⟩).1 = .ReadWriteAccess := by
  constructor
  · exact (authRepo_decision_table "a/b" "k" .transportError
      ⟨[], [], []⟩ ⟨false, true, true, true⟩).1 (by decide)
  · exact (authRepo_decision_table "demo" "ssh-ed25519 AAAA\n"
      (.httpResponse 200 false (some [⟨"1", "ssh-ed25519 AAAA user@host"⟩]))
      ⟨[], [], []⟩ ⟨false, true, true, true⟩).2.2.2.1 (by decide) (by decide)
      ⟨["demo"], ["demo"], ["demo"]⟩ ⟨true, true, true⟩ (by decide)

/-! ## The generated post-receive backup hook (`createPostReceiveHook`) -/

/-- The 40-character all-zero revision git passes for a deleted ref,
tested literally by the generated script. -/
def zeroRev : String := "0000000000000000000000000000000000000000"

/-- The three values interpolated into the hook template: the script's
`BACKUP_ROOT`, `REPO_NAME` and `UPLOAD_URL` shell variables. -/
structure HookScript where
  backupRoot : String
  repoName : String
  uploadUrl : String
deriving DecidableEq

/-- Computes `filepath.Join("..", "..", backupDir)` for a clean, slash-free
directory name such as the configured `repo_backups`. -/
def joinDotDot (backupDir : String) : String := "../../" ++ backupDir

/-- Function `createPostReceiveHook` from `main.go`: the template is instantiated
with `BACKUP_ROOT = filepath.Join("..", "..", config.BackupDir)`,
`REPO_NAME = repoName`, and `UPLOAD_URL = config.InternalServer + "/upload"`
(the `%s/upload` slot of the template). -/
def createPostReceiveHook (backupDir repoName internalServer : String) : HookScript :=
  ⟨joinDotDot backupDir, repoName, internalServer ++ "/upload"⟩

/-- The rendered hook text, line for line the Go template string of
`createPostReceiveHook` with the three interpolations filled in. -/
def renderHookText (s : HookScript) : String :=
  "#!/bin/bash\n" ++
  "set -e\n\n" ++
  "BACKUP_ROOT=\"" ++ s.backupRoot ++ "\"\n" ++
  "REPO_NAME=\"" ++ s.repoName ++ "\"\n" ++
  "UPLOAD_URL=\"" ++ s.uploadUrl ++ "\"\n\n" ++
  "while IFS=\x27 \x27 read -r oldrev newrev refname; do\n" ++
  "\tif [ \"$newrev\" = \"" ++ zeroRev ++ "\" ]; then\n" ++
  "\t\tcontinue\n" ++
  "\tfi\n\t\n" ++
  "\tZIP_NAME=\"${newrev}.zip\"\n" ++
  "\tDEST_DIR=\"$BACKUP_ROOT/$REPO_NAME\"\n" ++
  "\tDEST_PATH=\"$DEST_DIR/$ZIP_NAME\"\n\t\n" ++
  "\tmkdir -p \"$DEST_DIR\"\n" ++
  "\tgit archive \"$newrev\" --format=zip -o \"$DEST_PATH\"\n\t\n" ++
  "\tcurl -X POST \"$UPLOAD_URL\" \\\n" ++
  "\t\t-F \"repo=$REPO_NAME\" \\\n" ++
  "\t\t-F \"commit=$newrev\" \\\n" ++
  "\t\t-F \"file=@$DEST_PATH\" \\\n" ++
  "\t\t--max-time 30 \\\n" ++
  "\t\t--retry 3 \\\n" ++
  "\t\t--fail --silent --show-error || echo \"Upload failed for $newrev\"\n" ++
  "done\n"

/-- One `<oldrev> <newrev> <refname>` line the hook reads from its
standard input. -/
structure RefUpdate where
  oldrev : String
  newrev : String
  refname : String
deriving DecidableEq

/-- What one loop iteration of the generated script does with its line:
skip it (ref deletion) or archive to `DEST_PATH` and POST the multipart
form `repo={REPO_NAME}`, `commit={newrev}`, `file=@{DEST_PATH}` to
`UPLOAD_URL`, with curl's `--max-time` and `--retry` arguments. -/
inductive HookAction where
  | skipDeletion
  | backup (destPath url repoField commitField : String) (maxTimeSecs retryCount : Nat)
deriving DecidableEq

/-- The per-line semantics read off the script body:
`DEST_PATH="$BACKUP_ROOT/$REPO_NAME/${newrev}.zip"`, the curl POST to
`$UPLOAD_URL` with `--max-time 30 --retry 3`. -/
def hookLineAction (s : HookScript) (u : RefUpdate) : HookAction :=
  if u.newrev == zeroRev then .skipDeletion
  else .backup (s.backupRoot ++ "/" ++ s.repoName ++ "/" ++ u.newrev ++ ".zip")
    s.uploadUrl s.repoName u.newrev 30 3

/-- Per-line outcome of the two external commands the hook runs:
whether `mkdir -p` plus `git archive` succeed, and whether the `curl`
upload succeeds. -/
structure HookEnvLine where
  archiveOk : Bool
  uploadOk : Bool
deriving DecidableEq

/-- Result of executing the generated hook on its standard input: the
script's exit status, how many input lines it consumed, and what it wrote
to its standard output and standard error. -/
structure HookRun where
  exitOk : Bool
  processedLines : Nat
  stdoutLog : List String
  stderrLog : List String
deriving DecidableEq

/-- Execution of the script's `while read` loop.  A deletion line is
skipped; an archive failure terminates the script through `set -e`; a
`curl` failure is recovered by the `|| echo` alternative — the `echo`
writes `Upload failed for $newrev` to standard output, and curl itself
(run with `--show-error`) reports the failure on the script's standard
error [the latter modelled from the spec: curl's documented `-S` behavior
of printing its error message to stderr is outside this repository] — and
the loop continues with the next line. -/
def runHook (s : HookScript) : List (RefUpdate × HookEnvLine) → HookRun
  | [] => ⟨true, 0, [], []⟩
  | (u, env) :: rest =>
    if u.newrev == zeroRev then
      let r := runHook s rest
      ⟨r.exitOk, r.processedLines + 1, r.stdoutLog, r.stderrLog⟩
    else if !env.archiveOk then
      ⟨false, 1, [], []⟩
    else if env.uploadOk then
      let r := runHook s rest
      ⟨r.exitOk, r.processedLines + 1, r.stdoutLog, r.stderrLog⟩
    else
      let r := runHook s rest
      ⟨r.exitOk, r.processedLines + 1,
        ("Upload failed for " ++ u.newrev) :: r.stdoutLog,
        ("curl: upload of " ++ u.newrev ++ " failed") :: r.stderrLog⟩

/-- The kinds of git hooks relevant to whether a push can be rejected. -/
inductive HookKind where
  | preReceive
  | update
  | postReceive
deriving DecidableEq

/-- Modelled from the spec: git's transport engine invokes
`hooks/post-receive` only after it "has fully accepted a push" (glossary),
so only the pre-receive and update hook kinds can cause the push to be
reported as rejected; the outcome of a post-receive run never can. -/
def pushRejectedByHook (k : HookKind) (run : HookRun) : Bool :=
  match k with
  | .preReceive => !run.exitOk
  | .update => !run.exitOk
  | .postReceive => false

/-- The generated hook is installed at `hooks/post-receive`
(`hookPath` in `createPostReceiveHook`). -/
def installedHookKind : HookKind := .postReceive

/-- Counterexample to claim C7: with the backup directory configured as
`repo_backups`, identifier `demo` and authority base `http://auth`, the
script computes destination `../../repo_backups/demo/abc123.zip` for
revision `abc123` — not the claimed `repo_backups/demo/abc123.zip`: the
renderer interpolates `filepath.Join("..", "..", backupDir)` into
`BACKUP_ROOT`, not `backupDir` itself. -/
theorem hook_dest_path_counterexample :
    hookLineAction (createPostReceiveHook "repo_backups" "demo" "http://auth")
        ⟨"oldrev", "abc123", "refs/heads/main"⟩ =
      .backup "../../repo_backups/demo/abc123.zip" "http://auth/upload"
        "demo" "abc123" 30 3 ∧
    "../../repo_backups/demo/abc123.zip" ≠ "repo_backups/demo/abc123.zip" := by
  constructor
  · decide
  · decide

/-- Claim C7 as amended: rendering the backup hook with backup directory
`repo_backups`, identifier `demo` and authority base URL `http://auth`
produces a script that skips any input line whose newrev is the all-zero
40-character deletion marker and, for every other revision, computes
destination path `../../repo_backups/demo/{newrev}.zip` (the backup root
is interpolated as `../../repo_backups`, resolving to the server's
`repo_backups` root relative to the hook's working directory inside the
bare repository) and issues the multipart upload POST with fields `repo`,
`commit` and `file` to exactly `http://auth/upload`, bounded by a
30-second timeout and up to 3 retries. -/
theorem hook_rendering_amended :
    (∀ u : RefUpdate, u.newrev = zeroRev →
      hookLineAction (createPostReceiveHook "repo_backups" "demo" "http://auth") u =
        .skipDeletion) ∧
    (∀ u : RefUpdate, u.newrev ≠ zeroRev →
      hookLineAction (createPostReceiveHook "repo_backups" "demo" "http://auth") u =
        .backup ("../../repo_backups/demo/" ++ u.newrev ++ ".zip") "http://auth/upload"
          "demo" u.newrev 30 3) := by
  constructor
  · intro u hu
    unfold hookLineAction
    rw [if_pos (by simp [hu])]
  · intro u hu
    simp only [hookLineAction, createPostReceiveHook, joinDotDot]
    rw [if_neg (by simp [hu])]
    rw [show (((("../../" ++ "repo_backups") ++ "/") ++ "demo") ++ "/") =
      "../../repo_backups/demo/" from rfl,
      show ("http://auth" ++ "/upload") = "http://auth/upload" from rfl]

/-- Witness for C7 (amended): the deletion marker is skipped and revision
`abc123` is archived and uploaded as amended. -/
theorem hook_rendering_amended_witness :
    hookLineAction (createPostReceiveHook "repo_backups" "demo" "http://auth")
        ⟨"o", zeroRev, "refs/heads/main"⟩ = .skipDeletion ∧
    hookLineAction (createPostReceiveHook "repo_backups" "demo" "http://auth")
        ⟨"o", "abc123", "refs/heads/main"⟩ =
      .backup ("../../repo_backups/demo/" ++ "abc123" ++ ".zip") "http://auth/upload"
        "demo" "abc123" 30 3 :=
  ⟨hook_rendering_amended.1 ⟨"o", zeroRev, "refs/heads/main"⟩ rfl,
   hook_rendering_amended.2 ⟨"o", "abc123", "refs/heads/main"⟩ (by decide)⟩

/-- Claim C8: on a push where archiving succeeds, the generated hook processes
every input line and exits successfully even when uploads fail — each
failed upload leaves a message on the hook's standard output (`|| echo`)
and on its standard error (curl `--show-error`) and the loop continues;
and since the script is installed as a post-receive hook, no run of it —
whatever its outcome — can make git report the push as rejected. -/
theorem hook_upload_failure_nonfatal (s : HookScript)
    (input : List (RefUpdate × HookEnvLine))
    (harch : ∀ p ∈ input, p.2.archiveOk = true) :
    (runHook s input).exitOk = true ∧
    (runHook s input).processedLines = input.length ∧
    (∀ p ∈ input, p.1.newrev ≠ zeroRev → p.2.uploadOk = false →
      ("Upload failed for " ++ p.1.newrev) ∈ (runHook s input).stdoutLog ∧
      ("curl: upload of " ++ p.1.newrev ++ " failed") ∈ (runHook s input).stderrLog) ∧
    (∀ run : HookRun, pushRejectedByHook installedHookKind run = false) := by
  induction input with
  | nil =>
      refine ⟨rfl, rfl, ?_, fun _ => rfl⟩
      intro p hp
      cases hp
  | cons pe rest ih =>
      obtain ⟨u, env⟩ := pe
      have harch' : ∀ p ∈ rest, p.2.archiveOk = true :=
        fun p hp => harch p (by simp [hp])
      have henv : env.archiveOk = true := harch (u, env) (by simp)
      obtain ⟨ih1, ih2, ih3, -⟩ := ih harch'
      by_cases hz : (u.newrev == zeroRev) = true
      · have hrun : runHook s ((u, env) :: rest) =
            ⟨(runHook s rest).exitOk, (runHook s rest).processedLines + 1,
              (runHook s rest).stdoutLog, (runHook s rest).stderrLog⟩ := by
          conv_lhs => unfold runHook
          rw [if_pos hz]
        refine ⟨by rw [hrun]; exact ih1, by rw [hrun]; simp [ih2], ?_, fun _ => rfl⟩
        intro p hp hpz hpu
        rcases List.mem_cons.mp hp with hp | hp
        · exfalso
          apply hpz
          rw [hp]
          exact beq_iff_eq.mp hz
        · rw [hrun]
          exact ih3 p hp hpz hpu
      · by_cases hup : env.uploadOk = true
        · have hrun : runHook s ((u, env) :: rest) =
              ⟨(runHook s rest).exitOk, (runHook s rest).processedLines + 1,
                (runHook s rest).stdoutLog, (runHook s rest).stderrLog⟩ := by
            conv_lhs => unfold runHook
            rw [if_neg hz, if_neg (by simp [henv]), if_pos hup]
          refine ⟨by rw [hrun]; exact ih1, by rw [hrun]; simp [ih2], ?_, fun _ => rfl⟩
          intro p hp hpz hpu
          rcases List.mem_cons.mp hp with hp | hp
          · exfalso
            rw [hp] at hpu
            rw [hpu] at hup
            cases hup
          · rw [hrun]
            exact ih3 p hp hpz hpu
        · have hup' : env.uploadOk = false := by
            cases h : env.uploadOk
            · rfl
            · exact absurd h hup
          have hrun : runHook s ((u, env) :: rest) =
              ⟨(runHook s rest).exitOk, (runHook s rest).processedLines + 1,
                ("Upload failed for " ++ u.newrev) :: (runHook s rest).stdoutLog,
                ("curl: upload of " ++ u.newrev ++ " failed") ::
                  (runHook s rest).stderrLog⟩ := by
            conv_lhs => unfold runHook
            rw [if_neg hz, if_neg (by simp [henv]), if_neg (by simp [hup'])]
          refine ⟨by rw [hrun]; exact ih1, by rw [hrun]; simp [ih2], ?_, fun _ => rfl⟩
          intro p hp hpz hpu
          rcases List.mem_cons.mp hp with hp | hp
          · rw [hrun, hp]
            exact ⟨List.mem_cons_self _ _, List.mem_cons_self _ _⟩
          · rw [hrun]
            obtain ⟨hmo, hme⟩ := ih3 p hp hpz hpu
            exact ⟨List.mem_cons_of_mem _ hmo, List.mem_cons_of_mem _ hme⟩

/-- Witness for C8: one non-deletion line whose upload fails — the hook
exits successfully, the line is processed, both log messages appear, and
the push is not rejected. -/
theorem hook_upload_failure_nonfatal_witness :
    (runHook (createPostReceiveHook "repo_backups" "demo" "http://auth")
        [(⟨"o", "abc", "r"⟩, ⟨true, false⟩)]).exitOk = true ∧
    (runHook (createPostReceiveHook "repo_backups" "demo" "http://auth")
        [(⟨"o", "abc", "r"⟩, ⟨true, false⟩)]).processedLines = 1 ∧
    ("Upload failed for " ++ "abc") ∈
      (runHook (createPostReceiveHook "repo_backups" "demo" "http://auth")
        [(⟨"o", "abc", "r"⟩, ⟨true, false⟩)]).stdoutLog ∧
    pushRejectedByHook installedHookKind
      (runHook (createPostReceiveHook "repo_backups" "demo" "http://auth")
        [(⟨"o", "abc", "r"⟩, ⟨true, false⟩)]) = false := by
  have h := hook_upload_failure_nonfatal
    (createPostReceiveHook "repo_backups" "demo" "http://auth")
    [(⟨"o", "abc", "r"⟩, ⟨true, false⟩)] (by decide)
  refine ⟨h.1, h.2.1, ?_, h.2.2.2 _⟩
  exact (h.2.2.1 (⟨"o", "abc", "r"⟩, ⟨true, false⟩) (by simp) (by decide) rfl).1

/-! ## Configuration loading (`config.go`) -/

/-- A digit of `[0-9]` (code points 48–57). -/
def isDigitChar (c : Char) : Bool := 48 ≤ c.toNat && c.toNat ≤ 57

/-- Non-empty and all digits. -/
def allDigits (l : List Char) : Bool := !l.isEmpty && l.all isDigitChar

/-- Base-10 accumulation of a digit list. -/
def digitsToNat : List Char → Nat → Nat
  | [], acc => acc
  | c :: cs, acc => digitsToNat cs (acc * 10 + (c.toNat - 48))

/-- Go `strconv.Atoi`: an optional sign followed by one or more digits,
with the value required to fit Go's 64-bit `int`; anything else (empty
string, stray characters, out-of-range value) is an error, modelled as
`none`. -/
def goAtoi (s : String) : Option Int :=
  let signSplit : Bool × List Char :=
    match s.toList with
    | '+' :: rest => (false, rest)
    | '-' :: rest => (true, rest)
    | other => (false, other)
  if allDigits signSplit.2 then
    let v : Int :=
      if signSplit.1 then -(Int.ofNat (digitsToNat signSplit.2 0))
      else Int.ofNat (digitsToNat signSplit.2 0)
    if -(2 ^ 63) ≤ v ∧ v ≤ 2 ^ 63 - 1 then some v else none
  else none

/-- Two's-complement wrap of an integer into the 64-bit signed range —
Go's `int64` overflow semantics. -/
def wrap64 (n : Int) : Int := (n + 2 ^ 63) % 2 ^ 64 - 2 ^ 63

/-- Computes `time.Duration(seconds) * time.Second`: the duration in nanoseconds as
a Go `time.Duration` (an `int64`, multiplication wrapping on overflow). -/
def secondsToDuration (seconds : Int) : Int := wrap64 (seconds * 1000000000)

/-- The `Config` structure of `config.go`; `HTTPTimeout` is a
`time.Duration` in nanoseconds. -/
structure Config where
  Port : String
  Host : String
  RepoDir : String
  BackupDir : String
  InternalServer : String
  HTTPTimeout : Int
  SSHKeyPath : String
deriving DecidableEq

/-- Function `getEnvOrDefault` from `config.go`; the environment is the total map
`os.Getenv` provides, with `""` for an unset variable. -/
def getEnvOrDefault (env : String → String) (key defaultValue : String) : String :=
  if env key ≠ "" then env key else defaultValue

/-- Function `getDurationEnvOrDefault` from `config.go`: a set variable that
`strconv.Atoi` accepts is interpreted as seconds; everything else falls
back to the default. -/
def getDurationEnvOrDefault (env : String → String) (key : String)
    (defaultValue : Int) : Int :=
  if env key ≠ "" then
    match goAtoi (env key) with
    | some seconds => secondsToDuration seconds
    | none => defaultValue
  else defaultValue

/-- Function `loadConfig` from `config.go`, with its seven variables and stated
defaults. -/
def loadConfig (env : String → String) : Config :=
  { Port := getEnvOrDefault env "GIT_SERVER_PORT" "2222"
  , Host := getEnvOrDefault env "GIT_SERVER_HOST" "0.0.0.0"
  , RepoDir := getEnvOrDefault env "GIT_SERVER_REPO_DIR" "repos"
  , BackupDir := getEnvOrDefault env "GIT_SERVER_BACKUP_DIR" "repo_backups"
  , InternalServer :=
      getEnvOrDefault env "GIT_SERVER_AUTHORIZATION_SERVER_URL" "http://0.0.0.0:3000"
  , HTTPTimeout :=
      getDurationEnvOrDefault env "GIT_SERVER_HTTP_TIMEOUT" (secondsToDuration 10)
  , SSHKeyPath := getEnvOrDefault env "GIT_SERVER_SSH_KEY_PATH" ".ssh/id_ed25519" }

theorem getEnvOrDefault_spec (env : String → String) (key defaultValue : String) :
    (env key ≠ "" → getEnvOrDefault env key defaultValue = env key) ∧
    (env key = "" → getEnvOrDefault env key defaultValue = defaultValue) := by
  constructor
  · intro h
    unfold getEnvOrDefault
    rw [if_pos h]
  · intro h
    unfold getEnvOrDefault
    rw [if_neg (by simp [h])]

/-- Claim C10: each of the seven settings comes from its environment variable
when that variable is set (non-empty, the only notion of "set" Go's
`os.Getenv` can express), and otherwise is its stated default; a set but
non-integer (or out-of-range) HTTP timeout silently falls back to the
default of 10 seconds, and a valid integer is interpreted as that many
seconds. -/
theorem loadConfig_spec (env : String → String) :
    (env "GIT_SERVER_PORT" ≠ "" →
      (loadConfig env).Port = env "GIT_SERVER_PORT") ∧
    (env "GIT_SERVER_PORT" = "" → (loadConfig env).Port = "2222") ∧
    (env "GIT_SERVER_HOST" ≠ "" →
      (loadConfig env).Host = env "GIT_SERVER_HOST") ∧
    (env "GIT_SERVER_HOST" = "" → (loadConfig env).Host = "0.0.0.0") ∧
    (env "GIT_SERVER_REPO_DIR" ≠ "" →
      (loadConfig env).RepoDir = env "GIT_SERVER_REPO_DIR") ∧
    (env "GIT_SERVER_REPO_DIR" = "" → (loadConfig env).RepoDir = "repos") ∧
    (env "GIT_SERVER_BACKUP_DIR" ≠ "" →
      (loadConfig env).BackupDir = env "GIT_SERVER_BACKUP_DIR") ∧
    (env "GIT_SERVER_BACKUP_DIR" = "" →
      (loadConfig env).BackupDir = "repo_backups") ∧
    (env "GIT_SERVER_AUTHORIZATION_SERVER_URL" ≠ "" →
      (loadConfig env).InternalServer = env "GIT_SERVER_AUTHORIZATION_SERVER_URL") ∧
    (env "GIT_SERVER_AUTHORIZATION_SERVER_URL" = "" →
      (loadConfig env).InternalServer = "http://0.0.0.0:3000") ∧
    (∀ n : Int, env "GIT_SERVER_HTTP_TIMEOUT" ≠ "" →
      goAtoi (env "GIT_SERVER_HTTP_TIMEOUT") = some n →
      (loadConfig env).HTTPTimeout = secondsToDuration n) ∧
    (env "GIT_SERVER_HTTP_TIMEOUT" = "" ∨ goAtoi (env "GIT_SERVER_HTTP_TIMEOUT") = none →
      (loadConfig env).HTTPTimeout = secondsToDuration 10) ∧
    (env "GIT_SERVER_SSH_KEY_PATH" ≠ "" →
      (loadConfig env).SSHKeyPath = env "GIT_SERVER_SSH_KEY_PATH") ∧
    (env "GIT_SERVER_SSH_KEY_PATH" = "" →
      (loadConfig env).SSHKeyPath = ".ssh/id_ed25519") := by
  refine ⟨?_, ?_, ?_, ?_, ?_, ?_, ?_, ?_, ?_, ?_, ?_, ?_, ?_, ?_⟩
  · exact fun h => (getEnvOrDefault_spec env "GIT_SERVER_PORT" "2222").1 h
  · exact fun h => (getEnvOrDefault_spec env "GIT_SERVER_PORT" "2222").2 h
  · exact fun h => (getEnvOrDefault_spec env "GIT_SERVER_HOST" "0.0.0.0").1 h
  · exact fun h => (getEnvOrDefault_spec env "GIT_SERVER_HOST" "0.0.0.0").2 h
  · exact fun h => (getEnvOrDefault_spec env "GIT_SERVER_REPO_DIR" "repos").1 h
  · exact fun h => (getEnvOrDefault_spec env "GIT_SERVER_REPO_DIR" "repos").2 h
  · exact fun h => (getEnvOrDefault_spec env "GIT_SERVER_BACKUP_DIR" "repo_backups").1 h
  · exact fun h => (getEnvOrDefault_spec env "GIT_SERVER_BACKUP_DIR" "repo_backups").2 h
  · exact fun h =>
      (getEnvOrDefault_spec env "GIT_SERVER_AUTHORIZATION_SERVER_URL"
        "http://0.0.0.0:3000").1 h
  · exact fun h =>
      (getEnvOrDefault_spec env "GIT_SERVER_AUTHORIZATION_SERVER_URL"
        "http://0.0.0.0:3000").2 h
  · intro n hset hn
    show getDurationEnvOrDefault env "GIT_SERVER_HTTP_TIMEOUT" (secondsToDuration 10) =
      secondsToDuration n
    unfold getDurationEnvOrDefault
    rw [if_pos hset, hn]
  · rintro (h | h)
    · show getDurationEnvOrDefault env "GIT_SERVER_HTTP_TIMEOUT" (secondsToDuration 10) =
        secondsToDuration 10
      unfold getDurationEnvOrDefault
      rw [if_neg (by simp [h])]
    · show getDurationEnvOrDefault env "GIT_SERVER_HTTP_TIMEOUT" (secondsToDuration 10) =
        secondsToDuration 10
      unfold getDurationEnvOrDefault
      by_cases hset : env "GIT_SERVER_HTTP_TIMEOUT" ≠ ""
      · rw [if_pos hset, h]
      · rw [if_neg hset]
  · exact fun h => (getEnvOrDefault_spec env "GIT_SERVER_SSH_KEY_PATH" ".ssh/id_ed25519").1 h
  · exact fun h => (getEnvOrDefault_spec env "GIT_SERVER_SSH_KEY_PATH" ".ssh/id_ed25519").2 h

/-- Witness for C10: an environment that sets the port to `2345` and the
HTTP timeout to the non-integer `abc` — the port is taken from the
environment, the unset host keeps its default, and the invalid timeout
silently falls back to 10 seconds. -/
theorem loadConfig_spec_witness :
    (loadConfig (fun k =>
        if k = "GIT_SERVER_PORT" then "2345"
        else if k = "GIT_SERVER_HTTP_TIMEOUT" then "abc" else "")).Port = "2345" ∧
    (loadConfig (fun k =>
        if k = "GIT_SERVER_PORT" then "2345"
        else if k = "GIT_SERVER_HTTP_TIMEOUT" then "abc" else "")).Host = "0.0.0.0" ∧
    (loadConfig (fun k =>
        if k = "GIT_SERVER_PORT" then "2345"
        else if k = "GIT_SERVER_HTTP_TIMEOUT" then "abc" else "")).HTTPTimeout =
      secondsToDuration 10 := by
  have h := loadConfig_spec (fun k =>
    if k = "GIT_SERVER_PORT" then "2345"
    else if k = "GIT_SERVER_HTTP_TIMEOUT" then "abc" else "")
  exact ⟨h.1 (by decide), h.2.2.2.1 (by decide), h.2.2.2.2.2.2.2.2.2.2.2.1 (Or.inr (by decide))⟩

end GitServer
